import Mathlib

/-!
Verification of the `strand` random-string library.

The library has two generation paths:

* the secure path (`Bytes`, `String`, `BytesWithContext`, `StringWithContext`,
  `MustBytes`, `MustString`) draws raw bytes from a cryptographically secure
  entropy source and reduces each byte into the charset by a byte-wide modulo;
* the seeded path (`SeededBytes`, `SeededString`, `SeededBytesWithContext`,
  `SeededStringWithContext`) creates a fresh call-local pseudorandom stream
  from an explicit or time-derived seed and draws a bounded index per output
  position.

The embedding below follows the Go source.  Go strings and byte slices are
`List Nat` with each element a byte value; the Go `int` size parameter is
`Int`; the entropy source is an oracle (a byte stream plus a failure flag);
the seedable pseudorandom stream is an external collaborator and is kept
abstract as a state type `σ` with a constructor from the two 64-bit seed
words and a bounded-draw function, exactly the interface the code consumes.
A Go function returning `([]byte, error)` or `(string, error)` becomes a
`GoReturn` value: the pair of the data component and the optional error, with
a separate constructor for a run-time panic (the code can hit an integer
division by zero).  The `Must` wrappers return a `MustReturn`: either the
data, or a panic carrying the error value, or the plain run-time panic.
-/

/-- Cause recorded on a finished context: explicit cancellation or an
elapsed deadline (Go `context.Canceled` / `context.DeadlineExceeded`). -/
inductive CancelCause where
  | canceled
  | deadlineExceeded
deriving DecidableEq, Repr

/-- A Go context, as the generation functions observe it: either still live,
or already done with a recorded cause.  `context.Background()` is `live`. -/
inductive Ctx where
  | live
  | done (c : CancelCause)
deriving DecidableEq, Repr

/-- Error taxonomy of the package: the sentinel errors `ErrInvalidSize`,
`ErrEmptyCharset`, `ErrRandomFailure` plus the wrap of `ctx.Err()` produced
when a context-aware call finds its context already done. -/
inductive StrandError where
  | invalidSize
  | emptyCharset
  | randomFailure
  | ctxEnded (c : CancelCause)
deriving DecidableEq, Repr

/-- The result of a Go function returning `([]byte, error)` or
`(string, error)`: the data component together with the optional error,
or a run-time panic. -/
inductive GoReturn where
  | ret (data : List Nat) (e : Option StrandError)
  | panicked
deriving DecidableEq, Repr

/-- The result of a `Must...` wrapper: the data, a `panic(err)` carrying the
error value of the fallible call, or a propagated run-time panic. -/
inductive MustReturn where
  | ok (data : List Nat)
  | panickedWith (e : StrandError)
  | panicked
deriving DecidableEq, Repr

/-- The secure entropy source (`crypto/rand`): an unbounded byte stream
(values read modulo 256) and a flag saying whether `rand.Read` fails. -/
structure Entropy where
  bytes : Nat → Nat
  fails : Bool

/-- Embedding of `BytesWithContext` (strand.go).  The Go code checks the
context first, then `size <= 0`, then the empty charset, then fills a
buffer from `crypto/rand`, truncates the charset length to a byte
(`charsetLen := byte(len(charset))`) and maps each raw byte `b` to
`charset[b % charsetLen]`; when `charsetLen` is zero that modulo is an
integer division by zero and the call panics. -/
def BytesWithContext (ctx : Ctx) (e : Entropy) (size : Int) (cs : List Nat) :
    GoReturn :=
  match ctx with
  | .done c => .ret [] (some (.ctxEnded c))
  | .live =>
    if size ≤ 0 then .ret [] (some .invalidSize)
    else if cs.length = 0 then .ret [] (some .emptyCharset)
    else if e.fails then .ret [] (some .randomFailure)
    else
      let raw := (List.range size.toNat).map (fun i => e.bytes i % 256)
      let charsetLen := cs.length % 256
      if charsetLen = 0 then .panicked
      else .ret (raw.map (fun b => cs.getD (b % charsetLen) 0)) none

/-- Embedding of `Bytes` (strand.go): `BytesWithContext` on the background
context, which is never done. -/
def Bytes (e : Entropy) (size : Int) (cs : List Nat) : GoReturn :=
  BytesWithContext .live e size cs

/-- Embedding of `StringWithContext` (strand.go): call `BytesWithContext`;
on error return the empty string alongside the error, otherwise the string
view of the bytes. -/
def StringWithContext (ctx : Ctx) (e : Entropy) (size : Int) (cs : List Nat) :
    GoReturn :=
  match BytesWithContext ctx e size cs with
  | .ret d none => .ret d none
  | .ret _ (some er) => .ret [] (some er)
  | .panicked => .panicked

/-- Embedding of `String` (strand.go): `StringWithContext` on the background
context. -/
def String' (e : Entropy) (size : Int) (cs : List Nat) : GoReturn :=
  StringWithContext .live e size cs

/-- Embedding of `MustBytes` (strand.go): call `Bytes`; panic carrying the
error if there is one, otherwise return the data. -/
def MustBytes (e : Entropy) (size : Int) (cs : List Nat) : MustReturn :=
  match Bytes e size cs with
  | .ret d none => .ok d
  | .ret _ (some er) => .panickedWith er
  | .panicked => .panicked

/-- Embedding of `MustString` (strand.go): call `String`; panic carrying the
error if there is one, otherwise return the data. -/
def MustString (e : Entropy) (size : Int) (cs : List Nat) : MustReturn :=
  match String' e size cs with
  | .ret d none => .ok d
  | .ret _ (some er) => .panickedWith er
  | .panicked => .panicked

/-- The loop of `generateSeededBytes` (seeded.go): one bounded draw
`rng.IntN(len(charset))` per output position, threading the stream state.
An out-of-range index (impossible for a conforming stream, since `IntN n`
returns a value in `[0, n)`) would be an out-of-bounds string index in Go,
i.e. a panic, modelled as `none`. -/
def fillSeeded {σ : Type} (intN : σ → Nat → Nat × σ) (cs : List Nat) :
    σ → Nat → Option (List Nat)
  | _, 0 => some []
  | rng, Nat.succ k =>
    let p := intN rng cs.length
    if h : p.1 < cs.length then
      Option.map (fun rest => cs.get ⟨p.1, h⟩ :: rest)
        (fillSeeded intN cs p.2 k)
    else none

/-- Embedding of `generateSeededBytes` (seeded.go): `size <= 0` yields the
empty slice, an empty charset yields a zero-filled buffer of length `size`
(`make([]byte, size)`), otherwise the buffer is filled by bounded draws. -/
def generateSeededBytes {σ : Type} (intN : σ → Nat → Nat × σ) (rng : σ)
    (size : Int) (cs : List Nat) : GoReturn :=
  if size ≤ 0 then .ret [] none
  else if cs.length = 0 then .ret (List.replicate size.toNat 0) none
  else
    match fillSeeded intN cs rng size.toNat with
    | some d => .ret d none
    | none => .panicked

/-- Go conversion `uint64(v)` of an `int64` value: the two's-complement
representative in `[0, 2^64)`. -/
def toUInt64' (v : Int) : Nat := (v.emod (2 ^ 64)).toNat

/-- Embedding of `SeededBytes` (seeded.go).  The resolved seed is the first
explicit seed argument when one is given, otherwise the current wall-clock
nanosecond timestamp `now`.  A fresh call-local stream is built from the two
64-bit words `uint64(seedValue)` and `uint64(seedValue >> 32)`; the
arithmetic right shift of an `int64` is floor division by `2^32`. -/
def SeededBytes {σ : Type} (newPCG : Nat → Nat → σ) (intN : σ → Nat → Nat × σ)
    (now : Int) (size : Int) (cs : List Nat) (seed : List Int) : GoReturn :=
  let seedValue := if 0 < seed.length then seed.headD 0 else now
  let rng := newPCG (toUInt64' seedValue) (toUInt64' (Int.fdiv seedValue (2 ^ 32)))
  generateSeededBytes intN rng size cs

/-- Embedding of `SeededBytesWithContext` (seeded.go): if the context is
already done, fail with the wrap of `ctx.Err()` and a nil slice; otherwise
delegate to `SeededBytes`. -/
def SeededBytesWithContext {σ : Type} (newPCG : Nat → Nat → σ)
    (intN : σ → Nat → Nat × σ) (ctx : Ctx) (now : Int) (size : Int)
    (cs : List Nat) (seed : List Int) : GoReturn :=
  match ctx with
  | .done c => .ret [] (some (.ctxEnded c))
  | .live => SeededBytes newPCG intN now size cs seed

/-- Embedding of `SeededString` (seeded.go): the string view of
`SeededBytes`. -/
def SeededString {σ : Type} (newPCG : Nat → Nat → σ) (intN : σ → Nat → Nat × σ)
    (now : Int) (size : Int) (cs : List Nat) (seed : List Int) : GoReturn :=
  SeededBytes newPCG intN now size cs seed

/-- Embedding of `SeededStringWithContext` (seeded.go): call
`SeededBytesWithContext`; on error return the empty string alongside the
error, otherwise the string view of the bytes. -/
def SeededStringWithContext {σ : Type} (newPCG : Nat → Nat → σ)
    (intN : σ → Nat → Nat × σ) (ctx : Ctx) (now : Int) (size : Int)
    (cs : List Nat) (seed : List Int) : GoReturn :=
  match SeededBytesWithContext newPCG intN ctx now size cs seed with
  | .ret d none => .ret d none
  | .ret _ (some er) => .ret [] (some er)
  | .panicked => .panicked

/-! Concrete instances used by the witnesses: a throwaway pseudorandom
stream satisfying the shape the seeded path consumes. -/

/-- A concrete stream state constructor for witnesses: the state is the sum
of the two seed words. -/
def wNewPCG (a b : Nat) : Nat := a + b

/-- A concrete bounded-draw function for witnesses: draw `state % n`, step
the state. -/
def wIntN (s : Nat) (n : Nat) : Nat × Nat := (s % n, s + 1)

/-- A concrete entropy source for witnesses: the zero byte stream, never
failing. -/
def wEntropy : Entropy := ⟨fun _ => 0, false⟩

/-! Helper lemmas. -/

/-- `getD` at an in-range index is a member of the list. -/
theorem List.getD_mem_of_lt {l : List Nat} {i : Nat} (h : i < l.length)
    (d : Nat) : l.getD i d ∈ l := by
  induction l generalizing i with
  | nil => simp at h
  | cons a t ih =>
    cases i with
    | zero => simp [List.getD]
    | succ j =>
      simp only [List.getD_cons_succ]
      exact List.mem_cons_of_mem a (ih (by simpa using h) )

/-- `getD` on a mapped range, at an in-range index, is the function value. -/
theorem rangeMap_getD (f : Nat → Nat) {n i : Nat} (h : i < n) :
    ((List.range n).map f).getD i 0 = f i := by
  rw [List.getD_eq_getElem?_getD, List.getElem?_map, List.getElem?_range h]
  rfl

/-- Successful secure generation forces the live context, a positive size, a
non-empty charset, working entropy, a non-zero truncated charset length, and
pins down the returned data. -/
theorem bytesWithContext_ok {ctx : Ctx} {e : Entropy} {size : Int}
    {cs : List Nat} {d : List Nat}
    (h : BytesWithContext ctx e size cs = .ret d none) :
    ctx = .live ∧ 0 < size ∧ cs.length ≠ 0 ∧ e.fails = false ∧
      cs.length % 256 ≠ 0 ∧
      d = (List.range size.toNat).map
        (fun i => cs.getD ((e.bytes i % 256) % (cs.length % 256)) 0) := by
  cases ctx with
  | done c => simp [BytesWithContext] at h
  | live =>
    simp only [BytesWithContext] at h
    split_ifs at h with h1 h2 h3 h4
    · simp at h
    · simp at h
    · simp at h
    · simp only [GoReturn.ret.injEq, and_true] at h
      refine ⟨rfl, by omega, h2, by simpa using h3, h4, ?_⟩
      rw [← h]
      simp [Function.comp_def]

/-- StringWithContext succeeds exactly when BytesWithContext does, with the
same data. -/
theorem stringWithContext_ok_iff {ctx : Ctx} {e : Entropy} {size : Int}
    {cs : List Nat} {d : List Nat} :
    StringWithContext ctx e size cs = .ret d none ↔
      BytesWithContext ctx e size cs = .ret d none := by
  unfold StringWithContext
  cases hb : BytesWithContext ctx e size cs with
  | ret d' oe =>
    cases oe with
    | none => simp
    | some er => simp
  | panicked => simp

/-! ## C1: successful secure generation returns `size` bytes, all members of
the charset. -/

/-- C1: for every context, entropy source, size and charset, whenever the
secure byte generator (`BytesWithContext`, hence `Bytes`) or its string form
(`StringWithContext`, hence `String`) returns successfully, the returned
data has length exactly `size` and every element occurs in the charset. -/
theorem C1_secure_success_length_membership (ctx : Ctx) (e : Entropy)
    (size : Int) (cs : List Nat) (d : List Nat) :
    (BytesWithContext ctx e size cs = .ret d none →
      (d.length : Int) = size ∧ ∀ b ∈ d, b ∈ cs) ∧
    (StringWithContext ctx e size cs = .ret d none →
      (d.length : Int) = size ∧ ∀ b ∈ d, b ∈ cs) := by
  have core : BytesWithContext ctx e size cs = .ret d none →
      (d.length : Int) = size ∧ ∀ b ∈ d, b ∈ cs := by
    intro h
    obtain ⟨-, hpos, hne, -, hmod, hd⟩ := bytesWithContext_ok h
    constructor
    · rw [hd]
      simp only [List.length_map, List.length_range]
      omega
    · intro b hb
      rw [hd] at hb
      obtain ⟨i, -, rfl⟩ := List.mem_map.mp hb
      apply List.getD_mem_of_lt
      have hlt : (e.bytes i % 256) % (cs.length % 256) < cs.length % 256 :=
        Nat.mod_lt _ (Nat.pos_of_ne_zero hmod)
      exact lt_of_lt_of_le hlt (Nat.mod_le _ _)
  exact ⟨core, fun h => core (stringWithContext_ok_iff.mp h)⟩

/-- Witness for C1 at a concrete input: size 2 over the singleton charset
`[65]` with the zero entropy stream succeeds with data `[65, 65]`. -/
theorem C1_secure_success_length_membership_witness :
    (([65, 65] : List Nat).length : Int) = 2 ∧
      ∀ b ∈ ([65, 65] : List Nat), b ∈ ([65] : List Nat) :=
  (C1_secure_success_length_membership .live wEntropy 2 [65] [65, 65]).1
    (by decide)

/-! ## C2: seeded generation with an explicit seed is deterministic. -/

/-- C2: with an explicitly passed seed, `SeededBytes` and `SeededString` are
functions of `(size, charset, seed)` only: the result does not depend on the
ambient wall-clock time `now` (the only call-external input of the seeded
path, used solely as the default seed), so any two calls with identical
arguments — whenever made — produce byte-identical output. -/
theorem C2_seeded_determinism {σ : Type} (newPCG : Nat → Nat → σ)
    (intN : σ → Nat → Nat × σ) (now1 now2 size : Int) (cs : List Nat)
    (s : Int) (rest : List Int) :
    SeededBytes newPCG intN now1 size cs (s :: rest) =
      SeededBytes newPCG intN now2 size cs (s :: rest) ∧
    SeededString newPCG intN now1 size cs (s :: rest) =
      SeededString newPCG intN now2 size cs (s :: rest) := by
  constructor <;> simp [SeededBytes, SeededString]

/-! ## C3: the byte-to-charset reduction.  The spec says the secure path
maps a raw byte `b` to `charset[b mod len(charset)]` with the full integer
length; the code truncates the length to a byte first
(`charsetLen := byte(len(charset))`), so for charsets longer than 255
characters the divisor is `len(charset) mod 256`, not `len(charset)`. -/

/-- A charset of length 300 (byte values `0, 1, ..., 255, 0, ..., 43`),
long enough that the byte truncation of its length (44) differs from its
length. -/
def bigCharset : List Nat := (List.range 300).map (fun i => i % 256)

/-- An entropy source that always produces the raw byte 44. -/
def ent44 : Entropy := ⟨fun _ => 44, false⟩

set_option maxRecDepth 8192 in
/-- Counterexample to C3 as stated: over the 300-character charset
`bigCharset`, with the raw byte `b = 44`, the code returns
`bigCharset[44 mod 44] = bigCharset[0] = 0`, but the claimed mapping
`charset[b mod len(charset)]` gives `bigCharset[44 mod 300] = 44`. -/
theorem C3_counterexample :
    BytesWithContext .live ent44 1 bigCharset = .ret [0] none ∧
    bigCharset.getD (44 % bigCharset.length) 0 = 44 ∧ (0 : Nat) ≠ 44 := by
  decide

/-- C3 amended: on success the secure generator maps the raw byte `b` drawn
for position `i` to `charset[b mod (len(charset) mod 256)]` — the divisor is
the length truncated to a byte — and only for charsets of length at most
255 does this coincide with the claimed `charset[b mod len(charset)]`. -/
theorem C3_amended_byte_reduction (ctx : Ctx) (e : Entropy) (size : Int)
    (cs : List Nat) (d : List Nat)
    (h : BytesWithContext ctx e size cs = .ret d none) :
    (∀ i < size.toNat,
      d.getD i 0 = cs.getD ((e.bytes i % 256) % (cs.length % 256)) 0) ∧
    (cs.length ≤ 255 → ∀ i < size.toNat,
      d.getD i 0 = cs.getD ((e.bytes i % 256) % cs.length) 0) := by
  obtain ⟨-, -, -, -, -, hd⟩ := bytesWithContext_ok h
  have core : ∀ i < size.toNat,
      d.getD i 0 = cs.getD ((e.bytes i % 256) % (cs.length % 256)) 0 := by
    intro i hi
    rw [hd, rangeMap_getD _ hi]
  refine ⟨core, fun hle i hi => ?_⟩
  have h256 : cs.length % 256 = cs.length := Nat.mod_eq_of_lt (by omega)
  rw [core i hi, h256]

/-- Witness for the amended C3 at a concrete input: size 1 over the
charset `[65]` with the zero entropy stream. -/
theorem C3_amended_byte_reduction_witness :
    (∀ i < (1 : Int).toNat,
      ([65] : List Nat).getD i 0 =
        ([65] : List Nat).getD
          ((wEntropy.bytes i % 256) % (([65] : List Nat).length % 256)) 0) ∧
    (([65] : List Nat).length ≤ 255 → ∀ i < (1 : Int).toNat,
      ([65] : List Nat).getD i 0 =
        ([65] : List Nat).getD
          ((wEntropy.bytes i % 256) % ([65] : List Nat).length) 0) :=
  C3_amended_byte_reduction .live wEntropy 1 [65] [65] (by decide)

/-! ## C4: secure-path validation, before any random draw. -/

/-- C4: on the secure path, in both byte and string forms, a non-positive
size fails with `InvalidSize` and an empty charset (with the size already
positive — the size check comes first in the code) fails with
`EmptyCharset`.  Both equations hold for every entropy source, including a
failing one, which is exactly the statement that the validation happens
before any random bytes are drawn. -/
theorem C4_secure_validation (e : Entropy) (size : Int) (cs : List Nat) :
    (size ≤ 0 →
      Bytes e size cs = .ret [] (some .invalidSize) ∧
      String' e size cs = .ret [] (some .invalidSize)) ∧
    (0 < size → cs = [] →
      Bytes e size cs = .ret [] (some .emptyCharset) ∧
      String' e size cs = .ret [] (some .emptyCharset)) := by
  constructor
  · intro h1
    have hb : BytesWithContext .live e size cs = .ret [] (some .invalidSize) := by
      simp [BytesWithContext, h1]
    exact ⟨hb, by simp [String', StringWithContext, hb]⟩
  · intro h1 h2
    have hs : ¬ size ≤ 0 := by omega
    have hb : BytesWithContext .live e size cs = .ret [] (some .emptyCharset) := by
      simp [BytesWithContext, hs, h2]
    exact ⟨hb, by simp [String', StringWithContext, hb]⟩

/-- Witness for C4 at concrete inputs: size 0 fails with `InvalidSize`,
size 1 with the empty charset fails with `EmptyCharset`, in both forms,
even though the witness entropy source works. -/
theorem C4_secure_validation_witness :
    (Bytes wEntropy 0 [65] = .ret [] (some .invalidSize) ∧
      String' wEntropy 0 [65] = .ret [] (some .invalidSize)) ∧
    (Bytes wEntropy 1 [] = .ret [] (some .emptyCharset) ∧
      String' wEntropy 1 [] = .ret [] (some .emptyCharset)) :=
  ⟨(C4_secure_validation wEntropy 0 [65]).1 (by decide),
   (C4_secure_validation wEntropy 1 []).2 (by decide) rfl⟩

/-! ## C5: cancellation precedence. -/

/-- C5: every context-aware variant called on an already-done context
returns the cancellation error wrapping the recorded cause — `canceled` or
`deadlineExceeded` — together with empty data.  The equations hold for
every entropy source and every pseudorandom stream implementation, and
their right-hand sides mention neither, so no generation work (no entropy
read, no stream draw) affects the result. -/
theorem C5_cancellation_precedence {σ : Type} (newPCG : Nat → Nat → σ)
    (intN : σ → Nat → Nat × σ) (c : CancelCause) (e : Entropy)
    (now size : Int) (cs : List Nat) (seed : List Int) :
    BytesWithContext (.done c) e size cs = .ret [] (some (.ctxEnded c)) ∧
    StringWithContext (.done c) e size cs = .ret [] (some (.ctxEnded c)) ∧
    SeededBytesWithContext newPCG intN (.done c) now size cs seed =
      .ret [] (some (.ctxEnded c)) ∧
    SeededStringWithContext newPCG intN (.done c) now size cs seed =
      .ret [] (some (.ctxEnded c)) :=
  ⟨rfl, rfl, rfl, rfl⟩

/-! ## C6: a charset whose length is a positive multiple of 256 panics. -/

/-- C6: with a live context and a working entropy source, a positive size
and a non-empty charset whose length is a multiple of 256 make the secure
generator panic: `charsetLen := byte(len(charset))` is zero, and
`b % charsetLen` is an integer division by zero.  Neither a value nor an
error is returned. -/
theorem C6_truncated_length_zero_panics (e : Entropy) (size : Int)
    (cs : List Nat) (hE : e.fails = false) (h1 : 0 < size) (h2 : cs ≠ [])
    (h3 : cs.length % 256 = 0) :
    Bytes e size cs = .panicked ∧
    BytesWithContext .live e size cs = .panicked := by
  have hs : ¬ size ≤ 0 := by omega
  have hlen : cs.length ≠ 0 := by
    intro h0
    exact h2 (List.length_eq_zero.mp h0)
  have hb : BytesWithContext .live e size cs = .panicked := by
    simp [BytesWithContext, hs, hlen, hE, h3]
  exact ⟨hb, hb⟩

set_option maxRecDepth 8192 in
/-- Witness for C6 at a concrete input: a charset of 256 copies of `A`
panics for size 1. -/
theorem C6_truncated_length_zero_panics_witness :
    Bytes wEntropy 1 (List.replicate 256 65) = .panicked ∧
    BytesWithContext .live wEntropy 1 (List.replicate 256 65) = .panicked :=
  C6_truncated_length_zero_panics wEntropy 1 (List.replicate 256 65) rfl
    (by decide) (by decide) (by decide)

/-! ## C7: seeded generation with an empty charset fails safely. -/

/-- C7: the seeded generators never panic on an empty charset — the code
returns before any charset indexing — and for a positive size they return
the placeholder `make([]byte, size)`: a buffer of exactly `size` zero
bytes.  This holds for every stream implementation, seed list and clock
value. -/
theorem C7_seeded_empty_charset_safe {σ : Type} (newPCG : Nat → Nat → σ)
    (intN : σ → Nat → Nat × σ) (now size : Int) (seed : List Int) :
    SeededBytes newPCG intN now size [] seed ≠ .panicked ∧
    SeededString newPCG intN now size [] seed ≠ .panicked ∧
    (0 < size →
      SeededBytes newPCG intN now size [] seed =
        .ret (List.replicate size.toNat 0) none ∧
      SeededString newPCG intN now size [] seed =
        .ret (List.replicate size.toNat 0) none) := by
  have hb : SeededBytes newPCG intN now size [] seed =
      if size ≤ 0 then GoReturn.ret [] none
      else GoReturn.ret (List.replicate size.toNat 0) none := by
    simp [SeededBytes, generateSeededBytes]
  have hs : SeededString newPCG intN now size [] seed =
      SeededBytes newPCG intN now size [] seed := rfl
  refine ⟨?_, ?_, fun hpos => ?_⟩
  · rw [hb]
    split <;> simp
  · rw [hs, hb]
    split <;> simp
  · have hneg : ¬ size ≤ 0 := by omega
    rw [hs, hb, if_neg hneg]
    exact ⟨rfl, rfl⟩

/-- Witness for C7 at a concrete input: size 2 with the empty charset and
the witness stream gives two zero bytes and no panic. -/
theorem C7_seeded_empty_charset_safe_witness :
    SeededBytes wNewPCG wIntN 0 2 [] [] ≠ .panicked ∧
    SeededString wNewPCG wIntN 0 2 [] [] ≠ .panicked ∧
    (0 < (2 : Int) →
      SeededBytes wNewPCG wIntN 0 2 [] [] =
        .ret (List.replicate (2 : Int).toNat 0) none ∧
      SeededString wNewPCG wIntN 0 2 [] [] =
        .ret (List.replicate (2 : Int).toNat 0) none) :=
  C7_seeded_empty_charset_safe wNewPCG wIntN 0 2 []

/-! ## C8: seeded generation with a non-positive size yields empty output. -/

/-- C8: for every charset, seed list, clock value and stream
implementation, a non-positive size makes `SeededBytes` return the empty
byte slice and `SeededString` the empty string, with no error and no
panic. -/
theorem C8_seeded_nonpositive_size_empty {σ : Type} (newPCG : Nat → Nat → σ)
    (intN : σ → Nat → Nat × σ) (now size : Int) (cs : List Nat)
    (seed : List Int) (h : size ≤ 0) :
    SeededBytes newPCG intN now size cs seed = .ret [] none ∧
    SeededString newPCG intN now size cs seed = .ret [] none := by
  have hb : SeededBytes newPCG intN now size cs seed = .ret [] none := by
    simp [SeededBytes, generateSeededBytes, h]
  exact ⟨hb, hb⟩

/-- Witness for C8 at a concrete input: size `-3` over the charset `[65]`
yields empty output in both forms. -/
theorem C8_seeded_nonpositive_size_empty_witness :
    SeededBytes wNewPCG wIntN 0 (-3) [65] [7] = .ret [] none ∧
    SeededString wNewPCG wIntN 0 (-3) [65] [7] = .ret [] none :=
  C8_seeded_nonpositive_size_empty wNewPCG wIntN 0 (-3) [65] [7] (by decide)

/-! ## C9: the Must wrappers agree with their fallible counterparts. -/

/-- C9: whenever the fallible secure call returns data without error, the
corresponding `Must` wrapper returns exactly that data; whenever the
fallible call returns an error, the wrapper panics carrying that same error
value.  Both directions, for both the byte and the string form, over the
same entropy source (so the same draws). -/
theorem C9_must_wrapper_equivalence (e : Entropy) (size : Int)
    (cs : List Nat) :
    (∀ d, Bytes e size cs = .ret d none → MustBytes e size cs = .ok d) ∧
    (∀ er d, Bytes e size cs = .ret d (some er) →
      MustBytes e size cs = .panickedWith er) ∧
    (∀ d, String' e size cs = .ret d none → MustString e size cs = .ok d) ∧
    (∀ er d, String' e size cs = .ret d (some er) →
      MustString e size cs = .panickedWith er) := by
  refine ⟨fun d h => ?_, fun er d h => ?_, fun d h => ?_, fun er d h => ?_⟩
  · simp [MustBytes, h]
  · simp [MustBytes, h]
  · simp [MustString, h]
  · simp [MustString, h]

/-- Witness for C9 at concrete inputs: with the zero entropy stream,
size 1 over `[65]` succeeds in both the fallible and the Must form with the
same data, and size 0 makes the Must form panic carrying the same
`InvalidSize` error the fallible form returns. -/
theorem C9_must_wrapper_equivalence_witness :
    MustBytes wEntropy 1 [65] = .ok [65] ∧
    MustBytes wEntropy 0 [65] = .panickedWith .invalidSize ∧
    MustString wEntropy 0 [65] = .panickedWith .invalidSize :=
  ⟨(C9_must_wrapper_equivalence wEntropy 1 [65]).1 [65] (by decide),
   (C9_must_wrapper_equivalence wEntropy 0 [65]).2.1 .invalidSize []
     (by decide),
   (C9_must_wrapper_equivalence wEntropy 0 [65]).2.2.2 .invalidSize []
     (by decide)⟩

/-! ## C10: no partial results alongside an error. -/

/-- The seeded core never returns data together with an error: its only
outcomes are data with a nil error, or a panic. -/
theorem generateSeededBytes_error_free {σ : Type} (intN : σ → Nat → Nat × σ)
    (rng : σ) (size : Int) (cs : List Nat) (d : List Nat)
    (er : StrandError) :
    generateSeededBytes intN rng size cs ≠ .ret d (some er) := by
  unfold generateSeededBytes
  split_ifs with h1 h2
  · simp
  · simp
  · split <;> simp

/-- C10: whenever any generation operation — secure or seeded, byte or
string form, context-aware or not (`Bytes` and `String` are the live-context
instances of the first two conjuncts) — returns an error, the accompanying
data is empty: no partial result is ever returned alongside an error. -/
theorem C10_no_partial_results {σ : Type} (newPCG : Nat → Nat → σ)
    (intN : σ → Nat → Nat × σ) (ctx : Ctx) (e : Entropy) (now size : Int)
    (cs : List Nat) (seed : List Int) (d : List Nat) (er : StrandError) :
    (BytesWithContext ctx e size cs = .ret d (some er) → d = []) ∧
    (StringWithContext ctx e size cs = .ret d (some er) → d = []) ∧
    (SeededBytesWithContext newPCG intN ctx now size cs seed =
      .ret d (some er) → d = []) ∧
    (SeededStringWithContext newPCG intN ctx now size cs seed =
      .ret d (some er) → d = []) := by
  have hbytes : BytesWithContext ctx e size cs = .ret d (some er) → d = [] := by
    intro h
    cases ctx with
    | done c =>
      simp only [BytesWithContext, GoReturn.ret.injEq] at h
      exact h.1.symm
    | live =>
      simp only [BytesWithContext] at h
      split_ifs at h <;> simp_all
  have hstring : StringWithContext ctx e size cs = .ret d (some er) → d = [] := by
    intro h
    unfold StringWithContext at h
    cases hb : BytesWithContext ctx e size cs with
    | ret d' oe =>
      cases oe with
      | none => rw [hb] at h; simp at h
      | some er' => rw [hb] at h; simp_all
    | panicked => rw [hb] at h; simp at h
  have hseeded : SeededBytesWithContext newPCG intN ctx now size cs seed =
      .ret d (some er) → d = [] := by
    intro h
    cases ctx with
    | done c =>
      simp only [SeededBytesWithContext, GoReturn.ret.injEq] at h
      exact h.1.symm
    | live =>
      simp only [SeededBytesWithContext, SeededBytes] at h
      exact absurd h (generateSeededBytes_error_free _ _ _ _ _ _)
  have hseededString : SeededStringWithContext newPCG intN ctx now size cs
      seed = .ret d (some er) → d = [] := by
    intro h
    unfold SeededStringWithContext at h
    cases hb : SeededBytesWithContext newPCG intN ctx now size cs seed with
    | ret d' oe =>
      cases oe with
      | none => rw [hb] at h; simp at h
      | some er' => rw [hb] at h; simp_all
    | panicked => rw [hb] at h; simp at h
  exact ⟨hbytes, hstring, hseeded, hseededString⟩

/-- Witness for C10 at a concrete input: the four conjuncts applied to an
already-canceled call, whose error is accompanied by empty data. -/
theorem C10_no_partial_results_witness : ([] : List Nat) = [] :=
  (C10_no_partial_results wNewPCG wIntN (.done .canceled) wEntropy 0 1 [65]
    [] [] (.ctxEnded .canceled)).1 (by decide)
